import Mathlib

/-
Verification of the pseudo-bitcoin ledger core (src/Blockchain.py, src/Wallet.py)
against its natural-language specification.

The embedding is shallow: Python classes become Lean structures, methods become
pure functions with explicit state passing, Python exceptions become `Except`
values that carry the object state visible at the moment the exception
propagates (Python mutations performed before a `raise` remain observable).
External cryptographic collaborators (hashlib SHA-256, pycryptodome RIPEMD160,
base64/base58 codecs, the ecdsa keypair library, the PoW sealing step and the
block string codec) are not part of this repository's core and are modelled as
fields of a `Crypto` parameter structure, exactly at the interface the core
calls them through.
-/

set_option autoImplicit false

namespace PseudoBitcoin

/-- Byte strings of the Python code (`bytes` values) are modelled as lists of
naturals. -/
abbrev Bytes := List Nat

/-- Modelled from the spec: `Block.py` is not part of the provided sources.
Per §4.3 of the spec, sealing at the genesis call site is requested "at height
0" while `new_genesis_block` passes `prev_height = -1`, and `append` passes the
tip's height and produces a block at `height + 1`; hence the constructor stores
`height = prev_height + 1`.  The remaining fields follow the spec's Block data
model (`height, timestamp, difficultyBits, nonce, transactions, prevHash,
hash`). -/
structure Block where
  height : Int
  timestamp : Nat
  bits : Nat
  nonce : Nat
  transactions : List String
  prev_hash : String
  hash : String
deriving Repr, DecidableEq

/-- The external collaborators used by the core, at the exact interface the
Python code calls: hash functions consume and produce byte strings, the
base-64/base-58 encoders produce byte strings that are `.decode()`d to text
where the source does so, the ecdsa library supplies key generation, key
serialization and signing, the PoW collaborator seals a block into its hash,
and the block codec deserializes one stored line into a block. -/
structure Crypto where
  sha256 : Bytes → Bytes
  ripemd160 : Bytes → Bytes
  b64encode : Bytes → Bytes
  b64decode : Bytes → Bytes
  b58encode : Bytes → Bytes
  decodeAscii : Bytes → String
  encodeAscii : String → Bytes
  keyToString : Nat → Bytes
  keyFromString : Bytes → Nat
  vkOf : Nat → Nat
  sign : Nat → String → Bytes
  sealHash : Int → Nat → Nat → List String → String → String
  blockDeserialize : String → Block

/-- An account wallet (`Wallet` in src/Wallet.py): name, balance, signing key,
verifying key and the derived base-58 address.  Key objects are modelled by the
abstract key material handle (a natural) that `keyToString`/`keyFromString`
convert to and from bytes. -/
structure Wallet where
  name : String
  balance : Int
  sk : Nat
  vk : Nat
  address : String
deriving Repr, DecidableEq

/-- Address derivation (`Wallet._create_address`):
`base58(ripemd160(sha256(b64(vk_bytes))) ++ sha256(sha256(key_hash)))`,
decoded to text.  The checksum is the full 32-byte double-SHA256, appended to
the RIPEMD160 key hash before base-58 encoding. -/
def create_address (c : Crypto) (vk : Nat) : String :=
  let vkB := c.b64encode (c.keyToString vk)
  let key_hash := c.ripemd160 (c.sha256 vkB)
  let temp := c.sha256 key_hash
  let checksum := c.sha256 temp
  let addr := key_hash ++ checksum
  c.decodeAscii (c.b58encode addr)

/-- Constructor `Wallet.__init__(name, balance)`: generates a fresh keypair
(the fresh signing-key handle is passed in explicitly, standing for
`SigningKey.generate()`), takes the verifying key from it, and derives the
address once. -/
def walletInit (c : Crypto) (name : String) (balance : Int) (freshSk : Nat) : Wallet :=
  { name := name
    balance := balance
    sk := freshSk
    vk := c.vkOf freshSk
    address := create_address c (c.vkOf freshSk) }

/-- Return value of `RIPEMD160Hash.update(data)` in pycryptodome: the method
mutates the hash object in place and returns `None` (there is no fluent
chaining return).  `Wallet.verify_address` binds this return value. -/
def ripemd160UpdateReturn (_buffered _data : Bytes) : Option Bytes :=
  none

/-- Python comparison `bytes == str`: the types differ, `__eq__` returns
`NotImplemented` on both sides, and the comparison evaluates to `False`. -/
def pyBytesEqStr (_b : Bytes) (_s : String) : Bool :=
  false

/-- Translation of `Wallet.verify_address` (src/Wallet.py lines 370-407).
The source computes `vk = b64encode(...)`, feeds it to a sha256 object, then
binds `key_hash = h.update(m.digest())` — the `None` return of the RIPEMD160
update — and immediately calls `m.update(key_hash)` on a fresh sha256 object,
which raises `TypeError` because `None` is not bytes-like.  The remainder of
the method (which would compare the raw `key_hash + checksum` bytes, without a
final RIPEMD digest or base-58 encoding, against the base-58 string address)
is unreachable. -/
def verify_address (c : Crypto) (wallet : Wallet) : Except String Bool :=
  let vk := c.b64encode (c.keyToString wallet.vk)
  let mDigest := c.sha256 vk
  match ripemd160UpdateReturn [] mDigest with
  | none =>
      .error "TypeError: object supporting the buffer API required, not NoneType"
  | some key_hash =>
      let temp := c.sha256 key_hash
      let checksum := c.sha256 temp
      let addr := key_hash ++ checksum
      .ok (pyBytesEqStr addr wallet.address)

/-- The flat dictionary `Wallet.serialize` builds before `json.dumps`.  The
JSON encoding of a flat record of strings and integers is the external,
lossless string codec of §6 of the spec; serialization is therefore modelled
at the record level. -/
structure WalletRecord where
  name : String
  balance : Int
  sk : String
  vk : String
  address : String
deriving Repr, DecidableEq

/-- Translation of the static method `Wallet.serialize`: name and balance are
stored directly, both keys as base-64 text of their byte serialization, and
the address verbatim. -/
def Wallet.serialize (c : Crypto) (wallet : Wallet) : WalletRecord :=
  { name := wallet.name
    balance := wallet.balance
    sk := c.decodeAscii (c.b64encode (c.keyToString wallet.sk))
    vk := c.decodeAscii (c.b64encode (c.keyToString wallet.vk))
    address := wallet.address }

/-- Translation of the static method `Wallet.deserialize`: constructs
`Wallet(name, balance)` — which generates a throwaway fresh keypair and
derives a throwaway address — and then overwrites `sk`, `vk` and `address`
with the stored values. -/
def Wallet.deserialize (c : Crypto) (freshSk : Nat) (data : WalletRecord) : Wallet :=
  let wallet := walletInit c data.name data.balance freshSk
  { wallet with
    sk := c.keyFromString (c.b64decode (c.encodeAscii data.sk))
    vk := c.keyFromString (c.b64decode (c.encodeAscii data.vk))
    address := data.address }

/-- Python exceptions raised by the core: `KeyError` from dictionary lookups,
`ValueError` raised explicitly for insufficient balance (at enqueue time, and
— the spec's `SettlementInconsistency` — during settlement), and `IndexError`
from `blocks[-1]` on an empty chain. -/
inductive PyErr
  | keyError
  | valueError
  | indexError
deriving Repr, DecidableEq

/-- Modelled from the spec: `Address.py` is not part of the provided sources.
Fields follow the spec's Account data model (§3) and the accesses made by
`Blockchain.py` (`addr.sk`, `addr.vk`, `addr.balance`); the balance mutators
`add_balance`/`sub_balance` mirror the identically-named `Wallet` methods in
src/Wallet.py (`self.balance += amount` / `self.balance -= amount`). -/
structure Address where
  name : String
  balance : Int
  sk : Nat
  vk : Nat
  address : String
deriving Repr, DecidableEq

/-- The mutable state of a `Blockchain` instance (`Blockchain.__init__`),
with the defaults the constructor assigns.  File handles are not modelled;
the `savedAddressLog` records the account records written through
`save_address_data`, `warnings` records the messages printed on the duplicate
branch of `create_user`, `keySeed` supplies fresh key handles (standing for
`SigningKey.generate()`), and `clock` supplies `time.time()` timestamps. -/
structure BState where
  blocks : List Block := []
  bits : Nat := 15
  subsidy : Int := 50
  address_pool : List Address := []
  transaction_pool : List String := []
  balance_pool : List (String × String × Int) := []
  height : Nat := 0
  count : Nat := 0
  index : Nat := 0
  threshold : Nat := 100
  savedAddressLog : List Address := []
  warnings : List String := []
  keySeed : Nat := 0
  clock : Nat := 0
deriving Repr, DecidableEq

/-- First-match lookup `self.address_pool[name]`, `none` standing for a
`KeyError` (a Python dict has unique keys, so first match is the match). -/
def lookupAddr : List Address → String → Option Address
  | [], _ => none
  | a :: t, n => if a.name = n then some a else lookupAddr t n

/-- Balance mutation `self.address_pool[name].add_balance(amount)` (and, with
a negated amount, `sub_balance`): updates the named account in place, `none`
standing for the `KeyError` when the name is absent. -/
def addBalance : List Address → String → Int → Option (List Address)
  | [], _, _ => none
  | a :: t, n, d =>
      if a.name = n then some ({ a with balance := a.balance + d } :: t)
      else (addBalance t n d).map (a :: ·)

/-- Translation of `Blockchain.sign_transaction`: looks up the source's
signing key (`KeyError` as `none` when absent) and appends the base-58 text of
the signature after a `|` separator. -/
def sign_transaction (c : Crypto) (pool : List Address) (source tx_data : String) :
    Option String :=
  (lookupAddr pool source).map fun a =>
    tx_data ++ "|" ++ c.decodeAscii (c.b58encode (c.sign a.sk tx_data))

/-- Translation of `Blockchain.have_balance`: `address_pool[name].balance >=
amount`, `none` standing for the `KeyError` when the name is absent. -/
def have_balance (pool : List Address) (name : String) (amount : Int) : Option Bool :=
  (lookupAddr pool name).map fun a => decide (amount ≤ a.balance)

/-- The canonical transaction payload built by `add_transaction` (and rebuilt
by `read_transaction_data`). -/
def txPayload (source dest : String) (amount : Int) : String :=
  s!"from: {source} -- to: {dest} -- amount: {amount}"

/-- Translation of `Blockchain.add_transaction`: checks `have_balance` and
raises `ValueError` when it fails (leaving the state untouched), otherwise
signs the canonical payload and appends to both pool sequences.  Errors carry
the state observable when the exception propagates. -/
def add_transaction (c : Crypto) (s : BState) (source dest : String) (amount : Int) :
    Except (PyErr × BState) BState :=
  match have_balance s.address_pool source amount with
  | none => .error (.keyError, s)
  | some ok =>
      if ok then
        match sign_transaction c s.address_pool source (txPayload source dest amount) with
        | none => .error (.keyError, s)
        | some sign_data =>
            .ok { s with
                  transaction_pool := s.transaction_pool ++ [sign_data]
                  balance_pool := s.balance_pool ++ [(source, dest, amount)] }
      else .error (.valueError, s)

/-- Translation of `Blockchain.new_block`: builds a block at
`prev_height + 1` with the current difficulty, nonce 0 and a fresh timestamp,
then `set_hash` seals it through the PoW collaborator. -/
def new_block (c : Crypto) (s : BState) (prev_height : Int)
    (transactions : List String) (prev_hash : String) : Block × BState :=
  let b : Block :=
    { height := prev_height + 1
      timestamp := s.clock
      bits := s.bits
      nonce := 0
      transactions := transactions
      prev_hash := prev_hash
      hash := c.sealHash (prev_height + 1) s.clock s.bits transactions prev_hash }
  (b, { s with clock := s.clock + 1 })

/-- Translation of `Blockchain.add_block`: reads the tip (`blocks[-1]`,
`IndexError` on an empty chain), creates a block whose `prev_hash` is the
tip's hash, and appends it. -/
def add_block (c : Crypto) (s : BState) (transactions : List String) :
    Except (PyErr × BState) BState :=
  match s.blocks.getLast? with
  | none => .error (.indexError, s)
  | some prev =>
      let r := new_block c s prev.height transactions prev.hash
      .ok { r.2 with blocks := r.2.blocks ++ [r.1] }

/-- Counter bookkeeping of `Blockchain.save_block_data`: recomputes the
segment index from the running block count, rotates the segment file when the
count crosses a multiple of the threshold (file contents are not modelled)
and increments the count. -/
def save_block_data (s : BState) : BState :=
  { s with index := s.count / s.threshold, count := s.count + 1 }

/-- The coinbase reward message `f'Reward ${self.subsidy} to {name}'`. -/
def minerData (s : BState) (name : String) : String :=
  s!"Reward ${s.subsidy} to {name}"

/-- Translation of `Blockchain.new_coinbase_tx_account` at its single call
site, `fire_transactions(self.transaction_pool, name)`: the `transactions`
argument is the transaction pool object itself, so `transactions.append(...)`
grows the pool in place; the block is then built from the grown pool, the
miner is credited the subsidy, and the block data is saved. -/
def new_coinbase_tx_account (c : Crypto) (s : BState) (name : String) :
    Except (PyErr × BState) BState :=
  match sign_transaction c s.address_pool name (minerData s name) with
  | none => .error (.keyError, s)
  | some sign_data =>
      let s₁ := { s with transaction_pool := s.transaction_pool ++ [sign_data] }
      match add_block c s₁ s₁.transaction_pool with
      | .error e => .error e
      | .ok s₂ =>
          match addBalance s₂.address_pool name s₂.subsidy with
          | none => .error (.keyError, s₂)
          | some pool => .ok (save_block_data { s₂ with address_pool := pool })

/-- The settlement loop of `fire_transactions`: walks the balance-intent
sequence in insertion order; for each intent it checks `have_balance` (raising
`ValueError` — the spec's `SettlementInconsistency` — when the source cannot
cover the amount) and then moves the amount (`move_balance` = debit source,
credit dest).  Errors carry the pool as mutated so far. -/
def applyIntents : List (String × String × Int) → List Address →
    Except (PyErr × List Address) (List Address)
  | [], pool => .ok pool
  | (source, dest, amount) :: rest, pool =>
      match lookupAddr pool source with
      | none => .error (.keyError, pool)
      | some a =>
          if amount ≤ a.balance then
            match addBalance pool source (-amount) with
            | none => .error (.keyError, pool)
            | some p₁ =>
                match addBalance p₁ dest amount with
                | none => .error (.keyError, p₁)
                | some p₂ => applyIntents rest p₂
          else .error (.valueError, pool)

/-- Translation of `Blockchain.fire_transactions` (the spec's `settle`):
appends a signed coinbase to the pool, seals and appends the block, credits
the miner, then applies the balance intents; only if the whole loop succeeds
are both pools cleared.  Errors carry the state observable when the exception
propagates. -/
def fire_transactions (c : Crypto) (s : BState) (name : String) :
    Except (PyErr × BState) BState :=
  match new_coinbase_tx_account c s name with
  | .error e => .error e
  | .ok s₁ =>
      match applyIntents s₁.balance_pool s₁.address_pool with
      | .error (e, pool) => .error (e, { s₁ with address_pool := pool })
      | .ok pool =>
          .ok { s₁ with address_pool := pool, transaction_pool := [], balance_pool := [] }

/-- The message printed by the duplicate branch of `create_user`. -/
def dupUserMsg : String :=
  "User name exist! Please choose another name as your address!"

/-- Translation of `Blockchain.create_user`: if the name is not in the pool,
creates `Address(name, 0)` — fresh keypair and derived address, per the
spec-modelled `Address` constructor mirroring `Wallet.__init__` — appends it
to the pool and writes its record through `save_address_data`; otherwise
prints the duplicate warning and changes nothing. -/
def create_user (c : Crypto) (s : BState) (name : String) : BState :=
  match lookupAddr s.address_pool name with
  | none =>
      let sk := s.keySeed
      let addr : Address :=
        { name := name, balance := 0, sk := sk, vk := c.vkOf sk
          address := create_address c (c.vkOf sk) }
      { s with
        address_pool := s.address_pool ++ [addr]
        savedAddressLog := s.savedAddressLog ++ [addr]
        keySeed := sk + 1 }
  | some _ => { s with warnings := s.warnings ++ [dupUserMsg] }

/-- The base-64 alphabet. -/
def base64Chars : List Char :=
  "ABCDEFGHIJKLMNOPQRSTUVWXYZabcdefghijklmnopqrstuvwxyz0123456789+/".data

/-- Character of one 6-bit group. -/
def b64char (n : Nat) : Char := base64Chars.getD n 'A'

/-- Standard base-64 of a byte string, three bytes to four characters with
`=` padding. -/
def b64chunks : List Nat → List Char
  | [] => []
  | [a] => [b64char (a / 4), b64char (a % 4 * 16), '=', '=']
  | [a, b] => [b64char (a / 4), b64char (a % 4 * 16 + b / 16), b64char (b % 16 * 4), '=']
  | a :: b :: d :: rest =>
      b64char (a / 4) :: b64char (a % 4 * 16 + b / 16) ::
        b64char (b % 16 * 4 + d / 64) :: b64char (d % 64) :: b64chunks rest

/-- Concrete `base64.b64encode(..).decode()`. -/
def b64encodeBytes (bs : Bytes) : String := String.mk (b64chunks bs)

/-- SHA-256 digest of the empty byte string, the value of
`hashlib.sha256().digest()`: the published constant
e3b0c44298fc1c149afbf4c8996fb92427ae41e4649b934ca495991b7852b855, embedding
the external hashlib call at this one fixed input. -/
def sha256EmptyDigest : Bytes :=
  [0xe3, 0xb0, 0xc4, 0x42, 0x98, 0xfc, 0x1c, 0x14,
   0x9a, 0xfb, 0xf4, 0xc8, 0x99, 0x6f, 0xb9, 0x24,
   0x27, 0xae, 0x41, 0xe4, 0x64, 0x9b, 0x93, 0x4c,
   0xa4, 0x95, 0x99, 0x1b, 0x78, 0x52, 0xb8, 0x55]

/-- The `prev_hash` placeholder computed by `new_genesis_block`:
`base64.b64encode(hashlib.sha256().digest()).decode()`, the base-64 text of
the SHA-256 digest of the empty byte string. -/
def genesisPrevHash : String := b64encodeBytes sha256EmptyDigest

/-- Translation of `Blockchain.new_genesis_block`: signs the fixed genesis
message and builds a block with `prev_height = -1` (so height 0) and the
`genesisPrevHash` placeholder. -/
def new_genesis_block (c : Crypto) (s : BState) (name : String) :
    Except (PyErr × BState) (Block × BState) :=
  match sign_transaction c s.address_pool name "This is the genesis block!!!" with
  | none => .error (.keyError, s)
  | some sign_data => .ok (new_block c s (-1) [sign_data] genesisPrevHash)

/-- Translation of `Blockchain.initialize` (named `initChain` here): creates
the first user, credits it 50, appends the genesis block and saves it (file
handles not modelled). -/
def initChain (c : Crypto) (s : BState) (name : String) :
    Except (PyErr × BState) BState :=
  let s₁ := create_user c s name
  match addBalance s₁.address_pool name 50 with
  | none => .error (.keyError, s₁)
  | some pool =>
      let s₂ := { s₁ with address_pool := pool }
      match new_genesis_block c s₂ name with
      | .error e => .error e
      | .ok r => .ok (save_block_data { r.2 with blocks := r.2.blocks ++ [r.1] })

/-- Translation of `Blockchain.read_transaction_data` given the parsed
`{source, dest, amount}` records of the `transactions` file: each record
appends the rebuilt canonical payload to the transaction pool and the intent
to the balance pool (the file is then truncated — not modelled). -/
def read_transaction_data : BState → List (String × String × Int) → BState
  | s, [] => s
  | s, r :: rest =>
      read_transaction_data
        { s with
          transaction_pool := s.transaction_pool ++ [txPayload r.1 r.2.1 r.2.2]
          balance_pool := s.balance_pool ++ [r] }
        rest

/-- Python string comparison on character lists: lexicographic by code
point. -/
def charListLe : List Char → List Char → Bool
  | [], _ => true
  | _ :: _, [] => false
  | a :: as, b :: bs =>
      if a.toNat < b.toNat then true
      else if a.toNat = b.toNat then charListLe as bs
      else false

/-- Python `str` ordering, lexicographic by code point. -/
def pyStrLe (a b : String) : Bool := charListLe a.data b.data

/-- Insertion into a sorted list under the Python string order. -/
def insertSorted (x : String) : List String → List String
  | [] => [x]
  | y :: t => if pyStrLe x y then x :: y :: t else y :: insertSorted x t

/-- The `sorted(..)` builtin on a list of file names: plain lexicographic
string sort. -/
def pySorted (l : List String) : List String := l.foldr insertSorted []

/-- Python `list.remove(x)`: drops the first occurrence, `none` standing for
the `ValueError` when absent. -/
def removeFirst : List String → String → Option (List String)
  | [], _ => none
  | x :: t, y => if x = y then some t else (removeFirst t y).map (x :: ·)

/-- The segment-file order of `read_blocks_data`: the directory listing is
string-sorted and the four reserved names are removed, in the source's
order. -/
def segmentFiles (listing : List String) : Option (List String) := do
  let d0 := pySorted listing
  let d1 ← removeFirst d0 "genesis"
  let d2 ← removeFirst d1 "metadata"
  let d3 ← removeFirst d2 "address"
  let d4 ← removeFirst d3 "transactions"
  pure d4

/-- Translation of `Blockchain.read_blocks_data`: every line of every
remaining file, in file-then-line order, is deserialized as one block and
appended to the chain.  `contents` maps a file name to its lines. -/
def read_blocks_data (c : Crypto) (s : BState) (listing : List String)
    (contents : String → List String) : Option BState :=
  (segmentFiles listing).map fun files =>
    { s with blocks := s.blocks ++ ((files.map contents).flatten.map c.blockDeserialize) }

/-- The ledger operations observable between settlements: account creation,
transaction enqueue, settlement. -/
inductive LedgerOp
  | createUser (name : String)
  | addTx (source dest : String) (amount : Int)
  | settle (miner : String)

/-- The state observable after a call, whether it returned or raised: a
Python exception leaves the receiver in its mutated state. -/
def erredState (r : Except (PyErr × BState) BState) : BState :=
  match r with
  | .ok s => s
  | .error e => e.2

/-- One observable ledger step. -/
def stepOp (c : Crypto) (s : BState) : LedgerOp → BState
  | .createUser n => create_user c s n
  | .addTx a b amt => erredState (add_transaction c s a b amt)
  | .settle n => erredState (fire_transactions c s n)

/-- A sequence of observable ledger steps. -/
def runOps (c : Crypto) (s : BState) (ops : List LedgerOp) : BState :=
  ops.foldl (stepOp c) s

/-- Chain linkage: each block's `prev_hash` is the hash of the block before
it. -/
def chainLinked (l : List Block) : Prop :=
  List.Chain' (fun a b => b.prev_hash = a.hash) l

/-- Sum of all account balances. -/
def sumBal (pool : List Address) : Int := (pool.map Address.balance).sum

/-- A concrete instantiation of the external collaborators, used to evaluate
the model on explicit inputs.  The functions are simple tagged codings whose
only purpose is to be computable and, where a witness needs it, invertible at
the evaluated points. -/
def cTest : Crypto :=
  { sha256 := fun b => 0 :: b
    ripemd160 := fun b => 1 :: b
    b64encode := fun b => 2 :: b
    b64decode := fun b => b.drop 1
    b58encode := fun b => 3 :: b
    decodeAscii := fun b => String.mk (b.map Char.ofNat)
    encodeAscii := fun s => s.data.map Char.toNat
    keyToString := fun k => [k]
    keyFromString := fun b => b.headD 0
    vkOf := fun k => k + 1000
    sign := fun k m => [k + m.length]
    sealHash := fun h t b txs p =>
      String.intercalate ";" [toString h, toString t, toString b, toString txs.length, p]
    blockDeserialize := fun str =>
      { height := 0, timestamp := 0, bits := 0, nonce := 0, transactions := []
        prev_hash := "", hash := str } }

/-- A placeholder chain tip for concrete scenarios. -/
def dummyBlock : Block :=
  { height := 0, timestamp := 0, bits := 15, nonce := 0, transactions := []
    prev_hash := "", hash := "h0" }

/-- Concrete run: initialize the chain for account A (balance 50), create
account B, and enqueue two A-to-B transfers of 50 each — both pass the
enqueue-time sufficiency check against A's untouched balance of 50. -/
def demoState : BState :=
  runOps cTest (erredState (initChain cTest {} "A"))
    [.createUser "B", .addTx "A" "B" 50, .addTx "A" "B" 50]

/-- The account pool of `demoState` with the miner B already credited the
subsidy, as settlement produces it just before the intent loop. -/
def demoCredited : List Address :=
  (addBalance demoState.address_pool "B" demoState.subsidy).getD []

/-- The account pool observable when the settlement loop of `demoState`
raises: the first intent has been applied, the second failed its check. -/
def demoFailedPool : List Address :=
  match applyIntents demoState.balance_pool demoCredited with
  | .error r => r.2
  | .ok p => p

/-- Two-account pool for concrete scenarios: A holds 100, B holds 0. -/
def poolAB : List Address :=
  [{ name := "A", balance := 100, sk := 1, vk := 2, address := "addrA" },
   { name := "B", balance := 0, sk := 3, vk := 4, address := "addrB" }]

/-- Concrete pre-settlement state: one pending A-to-B transfer of 30 on a
one-block chain. -/
def settleState : BState :=
  { blocks := [dummyBlock], address_pool := poolAB
    transaction_pool := ["t0"], balance_pool := [("A", "B", 30)] }

/-- A store directory holding eleven segment files plus the four reserved
files. -/
def segListing : List String :=
  ["address", "genesis", "metadata", "transactions"] ++
    (List.range 11).map (fun i => "data-" ++ toString i)

/-- One serialized block line per segment file, labelled by its file. -/
def segContents : String → List String := fun f => [f ++ "#0"]

/-- A wallet as `createAccount` builds it, for round-trip evaluation. -/
def demoWallet : Wallet := walletInit cTest "Eve" 7 5

/-- The state of a freshly initialized chain for account A. -/
def c5Init : BState := erredState (initChain cTest {} "A")

/-- Observable steps to run on top of the freshly initialized chain. -/
def c5Ops : List LedgerOp :=
  [LedgerOp.createUser "B", LedgerOp.addTx "A" "B" 10, LedgerOp.settle "A"]

/-- A transaction-pool entry describes the same transfer as a balance intent
when it is the canonical payload of that intent (as `read_transaction_data`
replays it) or that payload followed by the `|` separator and a signature (as
`add_transaction` builds it). -/
def txMatches (tx : String) (intent : String × String × Int) : Prop :=
  tx = txPayload intent.1 intent.2.1 intent.2.2 ∨
  ∃ sig, tx = txPayload intent.1 intent.2.1 intent.2.2 ++ "|" ++ sig

/-- Positional alignment of the two pool sequences: they have equal length
and entry i of the pending-transaction pool describes the same transfer as
entry i of the balance-intent pool. -/
def poolsAligned (s : BState) : Prop :=
  s.transaction_pool.length = s.balance_pool.length ∧
  List.Forall₂ txMatches s.transaction_pool s.balance_pool

/-- Concrete aligned pre-settlement state: one signed pending A-to-B
transfer of 200 queued against a balance of 100, so the next settlement
fails its sufficiency check. -/
def c1State : BState :=
  { blocks := [dummyBlock], address_pool := poolAB
    transaction_pool := [txPayload "A" "B" 200 ++ "|" ++ "sig0"]
    balance_pool := [("A", "B", 200)] }

/-- A balance update succeeds exactly on the names the pool holds. -/
theorem addBalance_isSome {pool : List Address} {n : String} (d : Int)
    (h : (lookupAddr pool n).isSome) : (addBalance pool n d).isSome := by
  induction pool with
  | nil => simp [lookupAddr] at h
  | cons a t ih =>
      by_cases ha : a.name = n
      · simp [addBalance, ha]
      · rw [lookupAddr, if_neg ha] at h
        have := ih h
        rcases ho : addBalance t n d with _ | p
        · rw [ho] at this; simp at this
        · simp [addBalance, ha, ho]

/-- A successful balance update implies the name was present. -/
theorem lookup_isSome_of_addBalance {pool p' : List Address} {n : String} {d : Int}
    (h : addBalance pool n d = some p') : (lookupAddr pool n).isSome := by
  induction pool generalizing p' with
  | nil => simp [addBalance] at h
  | cons a t ih =>
      by_cases ha : a.name = n
      · simp [lookupAddr, ha]
      · rw [addBalance, if_neg ha] at h
        rcases ho : addBalance t n d with _ | p
        · rw [ho] at h; simp at h
        · rw [lookupAddr, if_neg ha]
          exact ih ho

/-- A balance update moves the balance sum by exactly the delta. -/
theorem addBalance_sum {pool p' : List Address} {n : String} {d : Int}
    (h : addBalance pool n d = some p') : sumBal p' = sumBal pool + d := by
  induction pool generalizing p' with
  | nil => simp [addBalance] at h
  | cons a t ih =>
      by_cases ha : a.name = n
      · rw [addBalance, if_pos ha] at h
        cases h
        simp [sumBal]
        ring
      · rw [addBalance, if_neg ha] at h
        rcases ho : addBalance t n d with _ | p
        · rw [ho] at h; simp at h
        · rw [ho] at h
          cases h
          have := ih ho
          simp only [sumBal, List.map_cons, List.sum_cons] at *
          omega

/-- The settlement loop is zero-sum: a successful pass leaves the balance sum
unchanged. -/
theorem applyIntents_ok_sum {l : List (String × String × Int)}
    {pool p' : List Address} (h : applyIntents l pool = .ok p') :
    sumBal p' = sumBal pool := by
  induction l generalizing pool with
  | nil => rw [applyIntents] at h; cases h; rfl
  | cons i rest ih =>
      obtain ⟨source, dest, amount⟩ := i
      rw [applyIntents] at h
      rcases hl : lookupAddr pool source with _ | a <;>
        simp only [hl] at h
      · cases h
      · by_cases hok : amount ≤ a.balance
        · rw [if_pos hok] at h
          rcases h1 : addBalance pool source (-amount) with _ | p₁ <;>
            simp only [h1] at h
          · cases h
          · rcases h2 : addBalance p₁ dest amount with _ | p₂ <;>
              simp only [h2] at h
            · cases h
            · have := ih h
              have e1 := addBalance_sum h1
              have e2 := addBalance_sum h2
              omega
        · rw [if_neg hok] at h; cases h

/-- A sufficiency failure in the settlement loop leaves exactly the prefix of
intents before the failing one applied: the carried pool is the result of a
successful pass over some initial segment. -/
theorem applyIntents_valueError_take {l : List (String × String × Int)}
    {pool q : List Address}
    (h : applyIntents l pool = .error (.valueError, q)) :
    ∃ k, applyIntents (List.take k l) pool = .ok q := by
  induction l generalizing pool with
  | nil => rw [applyIntents] at h; cases h
  | cons i rest ih =>
      obtain ⟨source, dest, amount⟩ := i
      rw [applyIntents] at h
      rcases hl : lookupAddr pool source with _ | a <;>
        simp only [hl] at h
      · cases h
      · by_cases hok : amount ≤ a.balance
        · rw [if_pos hok] at h
          rcases h1 : addBalance pool source (-amount) with _ | p₁ <;>
            simp only [h1] at h
          · cases h
          · rcases h2 : addBalance p₁ dest amount with _ | p₂ <;>
              simp only [h2] at h
            · cases h
            · obtain ⟨k, hk⟩ := ih h
              refine ⟨k + 1, ?_⟩
              simp only [List.take_succ_cons, applyIntents, hl, if_pos hok, h1, h2]
              exact hk
        · rw [if_neg hok] at h
          cases h
          exact ⟨0, by rw [List.take_zero, applyIntents]⟩

/-- A successful `add_block` appends exactly one block, linked to the old
tip, and changes nothing else the ledger observes. -/
theorem add_block_ok_spec {c : Crypto} {s : BState} {txs : List String} {s₂ : BState}
    (h : add_block c s txs = .ok s₂) :
    ∃ prev b, s.blocks.getLast? = some prev ∧ b.prev_hash = prev.hash ∧
      s₂.blocks = s.blocks ++ [b] ∧
      s₂.address_pool = s.address_pool ∧ s₂.subsidy = s.subsidy ∧
      s₂.transaction_pool = s.transaction_pool ∧
      s₂.balance_pool = s.balance_pool := by
  rw [add_block] at h
  rcases hl : s.blocks.getLast? with _ | prev <;> rw [hl] at h
  · cases h
  · cases h
    exact ⟨prev, _, rfl, rfl, rfl, rfl, rfl, rfl, rfl⟩

/-- A failed `add_block` raises before mutating: the carried state is the
input state. -/
theorem add_block_err_spec {c : Crypto} {s : BState} {txs : List String}
    {e : PyErr} {se : BState} (h : add_block c s txs = .error (e, se)) :
    se = s := by
  rw [add_block] at h
  rcases hl : s.blocks.getLast? with _ | prev <;> rw [hl] at h
  · cases h; rfl
  · cases h

/-- A successful coinbase step credits the miner the subsidy, appends one
block and one pool entry, and leaves the balance-intent pool and the subsidy
unchanged. -/
theorem new_coinbase_ok_spec {c : Crypto} {s : BState} {name : String} {s₁ : BState}
    (h : new_coinbase_tx_account c s name = .ok s₁) :
    addBalance s.address_pool name s.subsidy = some s₁.address_pool ∧
    s₁.balance_pool = s.balance_pool ∧
    s₁.subsidy = s.subsidy ∧
    (∃ prev b, s.blocks.getLast? = some prev ∧ b.prev_hash = prev.hash ∧
      s₁.blocks = s.blocks ++ [b]) ∧
    (∃ sd, sign_transaction c s.address_pool name (minerData s name) = some sd ∧
      s₁.transaction_pool = s.transaction_pool ++ [sd]) := by
  rw [new_coinbase_tx_account] at h
  rcases hsig : sign_transaction c s.address_pool name (minerData s name) with _ | sd <;>
    simp only [hsig] at h
  · cases h
  · rcases hab : add_block c { s with transaction_pool := s.transaction_pool ++ [sd] }
        (s.transaction_pool ++ [sd]) with ⟨e, se⟩ | s₂ <;>
      simp only [hab] at h
    · cases h
    · obtain ⟨prev, b, hlast, hpb, hblocks, hpool, hsub, htx, hbp⟩ := add_block_ok_spec hab
      rcases hbal : addBalance s₂.address_pool name s₂.subsidy with _ | pool <;>
        simp only [hbal] at h
      · cases h
      · cases h
        refine ⟨?_, ?_, ?_, ?_, ?_⟩
        · rw [← hpool, ← hsub]
          exact hbal
        · simpa [save_block_data] using hbp
        · simpa [save_block_data] using hsub
        · exact ⟨prev, b, hlast, hpb, by simpa [save_block_data] using hblocks⟩
        · exact ⟨sd, rfl, by simpa [save_block_data] using htx⟩

/-- A coinbase step cannot raise when the miner has an account and the chain
is nonempty (the three fallible sub-steps are a key lookup for signing, the
tip read, and the miner credit). -/
theorem new_coinbase_err_cases {c : Crypto} {s : BState} {name : String}
    {e : PyErr} {se : BState}
    (h : new_coinbase_tx_account c s name = .error (e, se))
    (hm : (lookupAddr s.address_pool name).isSome) (hb : s.blocks ≠ []) : False := by
  rw [new_coinbase_tx_account] at h
  rcases hsig : sign_transaction c s.address_pool name (minerData s name) with _ | sd <;>
    simp only [hsig] at h
  · obtain ⟨a, ha⟩ := Option.isSome_iff_exists.mp hm
    rw [sign_transaction, ha] at hsig
    cases hsig
  · rcases hab : add_block c { s with transaction_pool := s.transaction_pool ++ [sd] }
        (s.transaction_pool ++ [sd]) with ⟨e2, se2⟩ | s₂ <;>
      simp only [hab] at h
    · rw [add_block] at hab
      rcases hlast : ({ s with transaction_pool := s.transaction_pool ++ [sd] } :
          BState).blocks.getLast? with _ | prev <;>
        simp only [hlast] at hab
      · exact hb (List.getLast?_eq_none_iff.mp hlast)
      · cases hab
    · obtain ⟨prev, b, hlast, hpb, hblocks, hpool, hsub, htx, hbp⟩ := add_block_ok_spec hab
      rcases hbal : addBalance s₂.address_pool name s₂.subsidy with _ | pool <;>
        simp only [hbal] at h
      · rw [hpool] at hbal
        have := @addBalance_isSome s.address_pool name s₂.subsidy hm
        rw [hbal] at this
        simp at this
      · cases h

/-- A coinbase step succeeds when the miner has an account and the chain is
nonempty. -/
theorem new_coinbase_ok_total {c : Crypto} {s : BState} {name : String}
    (hm : (lookupAddr s.address_pool name).isSome) (hb : s.blocks ≠ []) :
    ∃ s₁, new_coinbase_tx_account c s name = .ok s₁ := by
  rcases hnc : new_coinbase_tx_account c s name with ⟨e, se⟩ | s₁
  · exact (new_coinbase_err_cases hnc hm hb).elim
  · exact ⟨s₁, rfl⟩

/-- A failed coinbase step leaves the chain unchanged or — when the failure
came after the block append — appends exactly one block, linked to the old
tip. -/
theorem new_coinbase_err_blocks {c : Crypto} {s : BState} {name : String}
    {e : PyErr} {se : BState}
    (h : new_coinbase_tx_account c s name = .error (e, se)) :
    se.blocks = s.blocks ∨
    ∃ prev b, s.blocks.getLast? = some prev ∧ b.prev_hash = prev.hash ∧
      se.blocks = s.blocks ++ [b] := by
  rw [new_coinbase_tx_account] at h
  rcases hsig : sign_transaction c s.address_pool name (minerData s name) with _ | sd <;>
    simp only [hsig] at h
  · cases h
    exact .inl rfl
  · rcases hab : add_block c { s with transaction_pool := s.transaction_pool ++ [sd] }
        (s.transaction_pool ++ [sd]) with ⟨e2, se2⟩ | s₂ <;>
      simp only [hab] at h
    · cases h
      rw [add_block_err_spec hab]
      exact .inl rfl
    · obtain ⟨prev, b, hlast, hpb, hblocks, hpool, hsub, htx, hbp⟩ := add_block_ok_spec hab
      rcases hbal : addBalance s₂.address_pool name s₂.subsidy with _ | pool <;>
        simp only [hbal] at h
      · cases h
        exact .inr ⟨prev, b, hlast, hpb, hblocks⟩
      · cases h

/-- A settlement raising after the miner credit leaves the intent pool
untouched and the transaction pool grown by exactly one trailing entry: the
signed coinbase reward transaction appended to it in place. -/
theorem fire_err_pools {c : Crypto} {s : BState} {name : String} {e : PyErr} {s' : BState}
    (hm : (lookupAddr s.address_pool name).isSome) (hb : s.blocks ≠ [])
    (h : fire_transactions c s name = .error (e, s')) :
    s'.balance_pool = s.balance_pool ∧
    ∃ sd, sign_transaction c s.address_pool name (minerData s name) = some sd ∧
      s'.transaction_pool = s.transaction_pool ++ [sd] := by
  obtain ⟨s₁, hnc⟩ := new_coinbase_ok_total hm hb
  rw [fire_transactions, hnc] at h
  obtain ⟨hbal, hbp, hsub, hblocks, sd, hsig, htx⟩ := new_coinbase_ok_spec hnc
  rcases happ : applyIntents s₁.balance_pool s₁.address_pool with ⟨e2, p⟩ | pool <;>
    simp only [happ] at h
  · cases h
    exact ⟨hbp, sd, hsig, htx⟩
  · cases h

/-- A successful settlement clears both pool sequences. -/
theorem fire_ok_pools {c : Crypto} {s : BState} {name : String} {s' : BState}
    (h : fire_transactions c s name = .ok s') :
    s'.transaction_pool = [] ∧ s'.balance_pool = [] := by
  rw [fire_transactions] at h
  rcases hnc : new_coinbase_tx_account c s name with ⟨e, se⟩ | s₁ <;>
    simp only [hnc] at h
  · cases h
  · rcases happ : applyIntents s₁.balance_pool s₁.address_pool with ⟨e2, p⟩ | pool <;>
      simp only [happ] at h
    · cases h
    · cases h
      exact ⟨rfl, rfl⟩

/-- Replaying pending-intent records grows both pools by one entry per
record. -/
theorem read_transaction_data_len (s : BState) (recs : List (String × String × Int)) :
    (read_transaction_data s recs).transaction_pool.length =
      s.transaction_pool.length + recs.length ∧
    (read_transaction_data s recs).balance_pool.length =
      s.balance_pool.length + recs.length := by
  induction recs generalizing s with
  | nil => simp [read_transaction_data]
  | cons r t ih =>
      rw [read_transaction_data]
      obtain ⟨h1, h2⟩ := ih
        { s with
          transaction_pool := s.transaction_pool ++ [txPayload r.1 r.2.1 r.2.2]
          balance_pool := s.balance_pool ++ [r] }
      constructor
      · rw [h1]; simp; omega
      · rw [h2]; simp; omega

/-- Appending a block whose `prev_hash` is the old tip's hash preserves chain
linkage. -/
theorem chainLinked_append {l : List Block} {b prev : Block}
    (hc : chainLinked l) (hl : l.getLast? = some prev) (hb : b.prev_hash = prev.hash) :
    chainLinked (l ++ [b]) := by
  rw [chainLinked, List.chain'_append]
  refine ⟨hc, List.chain'_singleton b, ?_⟩
  intro x hx y hy
  rw [hl] at hx
  simp only [Option.mem_def, Option.some.injEq] at hx
  simp only [List.head?_cons, Option.mem_def, Option.some.injEq] at hy
  rw [← hy, ← hx]
  exact hb

/-- Every observable ledger step either leaves the chain untouched or appends
exactly one block whose `prev_hash` is the previous tip's hash. -/
theorem stepOp_blocks (c : Crypto) (s : BState) (op : LedgerOp) :
    (stepOp c s op).blocks = s.blocks ∨
    ∃ prev b, s.blocks.getLast? = some prev ∧ b.prev_hash = prev.hash ∧
      (stepOp c s op).blocks = s.blocks ++ [b] := by
  cases op with
  | createUser n =>
      left
      simp only [stepOp, create_user]
      rcases lookupAddr s.address_pool n with _ | a <;> rfl
  | addTx src dst amt =>
      left
      simp only [stepOp, erredState, add_transaction]
      rcases have_balance s.address_pool src amt with _ | ok
      · rfl
      · cases ok
        · rfl
        · rcases sign_transaction c s.address_pool src (txPayload src dst amt) with _ | sd <;>
            rfl
  | settle n =>
      simp only [stepOp, erredState, fire_transactions]
      rcases hnc : new_coinbase_tx_account c s n with ⟨e, se⟩ | s₁ <;>
        simp only [hnc]
      · simpa using new_coinbase_err_blocks hnc
      · obtain ⟨hbal, hbp, hsub, ⟨prev, b, hlast, hpb, hblocks⟩, sd, hsig, htx⟩ :=
          new_coinbase_ok_spec hnc
        rcases happ : applyIntents s₁.balance_pool s₁.address_pool with ⟨e2, p⟩ | pool <;>
          simp only [happ] <;>
          exact .inr ⟨prev, b, hlast, hpb, hblocks⟩

/-- Running any sequence of observable ledger steps from a linked chain with
head `g` keeps the chain linked with head `g`. -/
theorem runOps_head_linked (c : Crypto) (ops : List LedgerOp) :
    ∀ s g rest, s.blocks = g :: rest → chainLinked s.blocks →
      ∃ rest', (runOps c s ops).blocks = g :: rest' ∧
        chainLinked (runOps c s ops).blocks := by
  induction ops with
  | nil => exact fun s g rest h hc => ⟨rest, h, hc⟩
  | cons op ops ih =>
      intro s g rest h hc
      rcases stepOp_blocks c s op with heq | ⟨prev, b, hlast, hpb, heq⟩
      · exact ih (stepOp c s op) g rest (heq.trans h) (heq ▸ hc)
      · have hblocks : (stepOp c s op).blocks = g :: (rest ++ [b]) := by
          rw [heq, h]; rfl
        have hlinked : chainLinked (stepOp c s op).blocks := by
          rw [heq]
          exact chainLinked_append hc hlast hpb
        exact ih (stepOp c s op) g (rest ++ [b]) hblocks hlinked

/-- An enqueue that raises leaves the state exactly as it was. -/
theorem add_transaction_err_state {c : Crypto} {s : BState} {src dst : String}
    {amt : Int} {e : PyErr} {se : BState}
    (h : add_transaction c s src dst amt = .error (e, se)) : se = s := by
  rw [add_transaction] at h
  rcases hhb : have_balance s.address_pool src amt with _ | ok <;>
    simp only [hhb] at h
  · cases h; rfl
  · cases ok
    · simp only [Bool.false_eq_true, if_false] at h
      cases h; rfl
    · simp only [if_true] at h
      rcases hsig : sign_transaction c s.address_pool src (txPayload src dst amt) with _ | sd <;>
        simp only [hsig] at h
      · cases h; rfl
      · cases h

/-- A successful enqueue appends the signed payload and the intent, and
changes nothing else. -/
theorem add_transaction_ok_spec {c : Crypto} {s : BState} {src dst : String}
    {amt : Int} {s' : BState}
    (h : add_transaction c s src dst amt = .ok s') :
    ∃ sd, sign_transaction c s.address_pool src (txPayload src dst amt) = some sd ∧
      s' = { s with transaction_pool := s.transaction_pool ++ [sd]
                    balance_pool := s.balance_pool ++ [(src, dst, amt)] } := by
  rw [add_transaction] at h
  rcases hhb : have_balance s.address_pool src amt with _ | ok <;>
    simp only [hhb] at h
  · cases h
  · cases ok
    · simp only [Bool.false_eq_true, if_false] at h
      cases h
    · simp only [if_true] at h
      rcases hsig : sign_transaction c s.address_pool src (txPayload src dst amt) with _ | sd <;>
        simp only [hsig] at h
      · cases h
      · cases h
        exact ⟨sd, rfl, rfl⟩

/-- The enqueue-time sufficiency check fails exactly as the source writes it:
with the sender present and short of funds, `add_transaction` raises
`ValueError` with the state untouched. -/
theorem add_transaction_insufficient {c : Crypto} {s : BState} {src dst : String}
    {amt : Int} {a : Address}
    (hl : lookupAddr s.address_pool src = some a) (hlt : a.balance < amt) :
    add_transaction c s src dst amt = .error (.valueError, s) := by
  have hhb : have_balance s.address_pool src amt = some false := by
    rw [have_balance, hl, Option.map_some']
    simp [not_le.mpr hlt]
  rw [add_transaction, hhb]
  rfl

/-- With the sender present and covering the amount, `add_transaction`
appends the signed payload and the intent. -/
theorem add_transaction_sufficient {c : Crypto} {s : BState} {src dst : String}
    {amt : Int} {a : Address}
    (hl : lookupAddr s.address_pool src = some a) (hge : amt ≤ a.balance) :
    add_transaction c s src dst amt =
      .ok { s with
            transaction_pool := s.transaction_pool ++
              [txPayload src dst amt ++ "|" ++
                c.decodeAscii (c.b58encode (c.sign a.sk (txPayload src dst amt)))]
            balance_pool := s.balance_pool ++ [(src, dst, amt)] } := by
  have hhb : have_balance s.address_pool src amt = some true := by
    rw [have_balance, hl, Option.map_some']
    simp [hge]
  have hsig : sign_transaction c s.address_pool src (txPayload src dst amt) =
      some (txPayload src dst amt ++ "|" ++
        c.decodeAscii (c.b58encode (c.sign a.sk (txPayload src dst amt)))) := by
    rw [sign_transaction, hl, Option.map_some']
  rw [add_transaction, hhb]
  simp only [if_true]
  rw [hsig]

/-- A signed pool entry is its payload followed by the separator and a
signature. -/
theorem sign_transaction_shape {c : Crypto} {pool : List Address} {src m sd : String}
    (h : sign_transaction c pool src m = some sd) :
    ∃ sig, sd = m ++ "|" ++ sig := by
  rw [sign_transaction] at h
  rcases hl : lookupAddr pool src with _ | a <;> rw [hl] at h
  · cases h
  · rw [Option.map_some'] at h
    exact ⟨_, (Option.some.inj h).symm⟩

/-- Appending one related pair to two pointwise-related lists keeps them
pointwise related. -/
theorem forall2_snoc {α β : Type} {R : α → β → Prop} {l : List α} {l' : List β}
    (h : List.Forall₂ R l l') {a : α} {b : β} (hab : R a b) :
    List.Forall₂ R (l ++ [a]) (l' ++ [b]) := by
  induction h with
  | nil => exact List.Forall₂.cons hab List.Forall₂.nil
  | cons hxy htail ih => exact List.Forall₂.cons hxy ih

/-- Replaying pending-intent records preserves positional alignment: each
record appends its canonical payload and its intent at the same position. -/
theorem read_transaction_data_aligned (recs : List (String × String × Int)) :
    ∀ s : BState, poolsAligned s → poolsAligned (read_transaction_data s recs) := by
  induction recs with
  | nil =>
      intro s hP
      rw [read_transaction_data]
      exact hP
  | cons r t ih =>
      intro s hP
      rw [read_transaction_data]
      refine ih _ ?_
      obtain ⟨hlen, hfa⟩ := hP
      constructor
      · simp [hlen]
      · exact forall2_snoc hfa (Or.inl rfl)

/-- C1 (counterexample): the claim fails after a settlement call that raises.
Starting from an initialized chain with account A (balance 50), account B,
and two enqueued A-to-B transfers of 50 each, `fire_transactions` for miner B
fails the sufficiency check on the second intent and raises; at that
observable point the transaction pool holds three entries (the coinbase was
appended to it in place) while the balance pool still holds two. -/
theorem c1_pools_desync_counterexample :
    (fire_transactions cTest demoState "B").isOk = false ∧
    (erredState (fire_transactions cTest demoState "B")).transaction_pool.length = 3 ∧
    (erredState (fire_transactions cTest demoState "B")).balance_pool.length = 2 := by
  refine ⟨rfl, rfl, rfl⟩

/-- C1 (amended): the two pool sequences stay positionally aligned — equal
length, entry i of each describing the same transfer — after any
`add_transaction` call (successful or failed), after `create_user`, after
replaying pending intents during load, and after a successful settlement;
after a settlement that raises past the miner credit, the balance pool is
untouched and the transaction pool equals the old (aligned) pool plus exactly
one trailing entry, the signed coinbase reward transaction that
`fire_transactions` appended to it in place. -/
theorem c1_pools_aligned (c : Crypto) (s : BState) (src dst nm miner : String)
    (amt : Int) (recs : List (String × String × Int))
    (hP : poolsAligned s) :
    poolsAligned (erredState (add_transaction c s src dst amt)) ∧
    poolsAligned (create_user c s nm) ∧
    poolsAligned (read_transaction_data s recs) ∧
    ((fire_transactions c s miner).isOk = true →
      poolsAligned (erredState (fire_transactions c s miner))) ∧
    ((lookupAddr s.address_pool miner).isSome → s.blocks ≠ [] →
      (fire_transactions c s miner).isOk = false →
      (erredState (fire_transactions c s miner)).balance_pool = s.balance_pool ∧
      ∃ sd, sign_transaction c s.address_pool miner (minerData s miner) = some sd ∧
        (erredState (fire_transactions c s miner)).transaction_pool =
          s.transaction_pool ++ [sd]) := by
  refine ⟨?_, ?_, ?_, ?_, ?_⟩
  · rcases hr : add_transaction c s src dst amt with ⟨e, se⟩ | s'
    · have hse := add_transaction_err_state hr
      simpa [erredState, hse] using hP
    · obtain ⟨sd, hsig, hs'⟩ := add_transaction_ok_spec hr
      obtain ⟨sig, hsd⟩ := sign_transaction_shape hsig
      obtain ⟨hlen, hfa⟩ := hP
      subst hs'
      constructor
      · simp [erredState, hlen]
      · exact forall2_snoc hfa (Or.inr ⟨sig, hsd⟩)
  · rw [create_user]
    rcases lookupAddr s.address_pool nm with _ | a <;> exact hP
  · exact read_transaction_data_aligned recs s hP
  · intro hok
    rcases hr : fire_transactions c s miner with ⟨e, se⟩ | s'
    · rw [hr] at hok; cases hok
    · obtain ⟨h1, h2⟩ := fire_ok_pools hr
      constructor
      · simp [erredState, h1, h2]
      · show List.Forall₂ txMatches s'.transaction_pool s'.balance_pool
        rw [h1, h2]
        exact List.Forall₂.nil
  · intro hm hb hok
    rcases hr : fire_transactions c s miner with ⟨e, se⟩ | s'
    · obtain ⟨h1, sd, hsig, h2⟩ := fire_err_pools hm hb hr
      exact ⟨h1, sd, hsig, h2⟩
    · rw [hr] at hok; cases hok

/-- C1 (witness): the amended alignment invariant evaluated on a concrete
aligned state whose one pending transfer over-draws the sender, so the
settlement clause is exercised on a genuinely failing settle. -/
theorem c1_pools_aligned_witness :
    poolsAligned (erredState (add_transaction cTest c1State "A" "B" 10)) ∧
    poolsAligned (create_user cTest c1State "C") ∧
    poolsAligned (read_transaction_data c1State [("A", "B", 1)]) ∧
    ((fire_transactions cTest c1State "B").isOk = true →
      poolsAligned (erredState (fire_transactions cTest c1State "B"))) ∧
    ((lookupAddr c1State.address_pool "B").isSome → c1State.blocks ≠ [] →
      (fire_transactions cTest c1State "B").isOk = false →
      (erredState (fire_transactions cTest c1State "B")).balance_pool =
        c1State.balance_pool ∧
      ∃ sd, sign_transaction cTest c1State.address_pool "B" (minerData c1State "B") =
          some sd ∧
        (erredState (fire_transactions cTest c1State "B")).transaction_pool =
          c1State.transaction_pool ++ [sd]) :=
  c1_pools_aligned cTest c1State "A" "B" "C" "B" 10 [("A", "B", 1)]
    ⟨rfl, List.Forall₂.cons (Or.inr ⟨"sig0", rfl⟩) List.Forall₂.nil⟩

/-- C2 (code bug): `read_blocks_data` orders segment files by plain string
sort, not by the numeric index in the filename.  On a store holding segments
data-0 through data-10 the four reserved files are excluded, but the segments
are read in the order data-0, data-1, data-10, data-2, ..., data-9, so the
blocks of data-10 are appended to the chain before those of data-2. -/
theorem c2_segment_order_code_bug :
    segmentFiles segListing =
      some ["data-0", "data-1", "data-10", "data-2", "data-3", "data-4", "data-5",
        "data-6", "data-7", "data-8", "data-9"] ∧
    (read_blocks_data cTest {} segListing segContents).map
        (fun s => s.blocks.map Block.hash) =
      some ["data-0#0", "data-1#0", "data-10#0", "data-2#0", "data-3#0", "data-4#0",
        "data-5#0", "data-6#0", "data-7#0", "data-8#0", "data-9#0"] := by
  refine ⟨rfl, rfl⟩

/-- C3: when a settlement's intent loop hits an intent that fails the
sufficiency check, `fire_transactions` raises the `ValueError` that stands
for `SettlementInconsistency` — but the block is already on the chain (its
length grew by one) and the miner was already credited: the observable
account pool is the credited pool with exactly the prefix of intents before
the failing one applied. -/
theorem c3_post_commit_failure (c : Crypto) (s : BState) (miner : String)
    (p₀ pf : List Address)
    (hcred : addBalance s.address_pool miner s.subsidy = some p₀)
    (hb : s.blocks ≠ [])
    (hfail : applyIntents s.balance_pool p₀ = .error (.valueError, pf)) :
    ∃ s', fire_transactions c s miner = .error (.valueError, s') ∧
      s'.blocks.length = s.blocks.length + 1 ∧
      s'.address_pool = pf ∧
      (∃ k, applyIntents (List.take k s.balance_pool) p₀ = .ok pf) := by
  have hm : (lookupAddr s.address_pool miner).isSome := lookup_isSome_of_addBalance hcred
  obtain ⟨s₁, hnc⟩ := new_coinbase_ok_total hm hb
  obtain ⟨hbal, hbp, hsub, ⟨prev, b, hlast, hpb, hblocks⟩, sd, hsig, htx⟩ :=
    new_coinbase_ok_spec hnc
  have hpool : s₁.address_pool = p₀ := by
    rw [hcred] at hbal
    exact Option.some.inj hbal.symm
  have happ : applyIntents s₁.balance_pool s₁.address_pool = .error (.valueError, pf) := by
    rw [hbp, hpool]
    exact hfail
  rw [fire_transactions, hnc]
  simp only [happ]
  refine ⟨_, rfl, ?_, rfl, applyIntents_valueError_take hfail⟩
  simp [hblocks]

/-- C3 (witness): the post-commit failure evaluated on the concrete
scenario: miner B credited, first A-to-B transfer applied, second raises. -/
theorem c3_post_commit_failure_witness :
    ∃ s', fire_transactions cTest demoState "B" = .error (.valueError, s') ∧
      s'.blocks.length = demoState.blocks.length + 1 ∧
      s'.address_pool = demoFailedPool ∧
      (∃ k, applyIntents (List.take k demoState.balance_pool) demoCredited =
        .ok demoFailedPool) :=
  c3_post_commit_failure cTest demoState "B" demoCredited demoFailedPool
    (by rfl) (by decide) (by rfl)

/-- C4 (code bug): `verify_address` never returns true — for every wallet it
raises the `TypeError` produced by feeding the `None` return of
`RIPEMD160Hash.update` into `sha256.update`, so in particular it does not
return true on a wallet freshly built by the account constructor. -/
theorem c4_verify_address_code_bug (c : Crypto) (name : String) (balance : Int)
    (freshSk : Nat) :
    verify_address c (walletInit c name balance freshSk) =
      .error "TypeError: object supporting the buffer API required, not NoneType" :=
  rfl

/-- C5 (counterexample): the genesis `prev_hash` placeholder is the base-64
text of the SHA-256 digest of the empty byte string — a digest that is not
all-zero, and whose encoding differs from that of the all-zero digest. -/
theorem c5_genesis_prev_hash_counterexample :
    (erredState (initChain cTest {} "A")).blocks.map Block.prev_hash = [genesisPrevHash] ∧
    genesisPrevHash = b64encodeBytes sha256EmptyDigest ∧
    genesisPrevHash ≠ b64encodeBytes (List.replicate 32 0) ∧
    sha256EmptyDigest ≠ List.replicate 32 0 := by
  refine ⟨rfl, rfl, by decide, by decide⟩

/-- C5 (amended): the genesis block produced by initialization is sealed at
height 0 and uses as `prev_hash` the fixed placeholder
`base64(sha256(empty))` — a sentinel, not the hash of any block; after any
sequence of observable ledger steps the genesis block is still the chain's
head and every later block's `prev_hash` is the hash of the block preceding
it, so genesis remains the unique block not linked to a predecessor. -/
theorem c5_genesis_placeholder_and_linkage (c : Crypto) (s₀ sInit : BState)
    (name : String) (ops : List LedgerOp)
    (h0 : s₀.blocks = [])
    (hinit : initChain c s₀ name = .ok sInit) :
    ∃ g rest, (runOps c sInit ops).blocks = g :: rest ∧
      g.height = 0 ∧ g.prev_hash = genesisPrevHash ∧
      chainLinked (runOps c sInit ops).blocks := by
  rw [initChain] at hinit
  rcases hbal : addBalance (create_user c s₀ name).address_pool name 50 with _ | pool <;>
    simp only [hbal] at hinit
  · cases hinit
  · rw [new_genesis_block] at hinit
    rcases hsig : sign_transaction c pool name "This is the genesis block!!!" with _ | sd <;>
      simp only [hsig] at hinit
    · cases hinit
    · cases hinit
      have hcu : (create_user c s₀ name).blocks = s₀.blocks := by
        rw [create_user]
        rcases lookupAddr s₀.address_pool name with _ | a <;> rfl
      have hblocks :
          (save_block_data
            { (new_block c { create_user c s₀ name with address_pool := pool }
                (-1) [sd] genesisPrevHash).2 with
              blocks :=
                (new_block c { create_user c s₀ name with address_pool := pool }
                  (-1) [sd] genesisPrevHash).2.blocks ++
                  [(new_block c { create_user c s₀ name with address_pool := pool }
                    (-1) [sd] genesisPrevHash).1] }).blocks =
            [(new_block c { create_user c s₀ name with address_pool := pool }
              (-1) [sd] genesisPrevHash).1] := by
        simp [save_block_data, new_block, hcu, h0]
      obtain ⟨rest', hrun, hlink⟩ :=
        runOps_head_linked c ops _ _ [] hblocks (by rw [hblocks]; exact List.chain'_singleton _)
      refine ⟨_, rest', hrun, ?_, rfl, hlink⟩
      show (-1 : Int) + 1 = 0
      decide

/-- C5 (witness): the amended statement evaluated on the concrete
initialized chain followed by an account creation, an enqueue and a
settlement. -/
theorem c5_genesis_placeholder_witness :
    ∃ g rest, (runOps cTest c5Init c5Ops).blocks = g :: rest ∧
      g.height = 0 ∧ g.prev_hash = genesisPrevHash ∧
      chainLinked (runOps cTest c5Init c5Ops).blocks :=
  c5_genesis_placeholder_and_linkage cTest {} c5Init "A" c5Ops rfl rfl

/-- C6: when the sender's current balance is below the requested amount,
`add_transaction` raises `ValueError` (`InsufficientBalance`) and the
observable state — both pool sequences included — is exactly the state
before the call. -/
theorem c6_insufficient_balance (c : Crypto) (s : BState) (src dst : String)
    (amt : Int) (a : Address)
    (hl : lookupAddr s.address_pool src = some a) (hlt : a.balance < amt) :
    add_transaction c s src dst amt = .error (.valueError, s) ∧
    (erredState (add_transaction c s src dst amt)).transaction_pool =
      s.transaction_pool ∧
    (erredState (add_transaction c s src dst amt)).balance_pool = s.balance_pool := by
  have h := @add_transaction_insufficient c s src dst amt a hl hlt
  refine ⟨h, ?_, ?_⟩ <;> rw [h] <;> rfl

/-- C6 (witness): account A holds 100 and requests 200: the call raises and
the state is untouched. -/
theorem c6_insufficient_balance_witness :
    add_transaction cTest settleState "A" "B" 200 = .error (.valueError, settleState) ∧
    (erredState (add_transaction cTest settleState "A" "B" 200)).transaction_pool =
      settleState.transaction_pool ∧
    (erredState (add_transaction cTest settleState "A" "B" 200)).balance_pool =
      settleState.balance_pool :=
  c6_insufficient_balance cTest settleState "A" "B" 200
    { name := "A", balance := 100, sk := 1, vk := 2, address := "addrA" }
    (by rfl) (by decide)

/-- C7: a successful settlement conserves value up to the subsidy: the sum of
all account balances afterwards equals the sum before plus exactly the
subsidy, since every applied intent is a zero-sum move and only the miner's
coinbase credit creates value. -/
theorem c7_balance_conservation (c : Crypto) (s : BState) (miner : String)
    (s' : BState) (h : fire_transactions c s miner = .ok s') :
    sumBal s'.address_pool = sumBal s.address_pool + s.subsidy := by
  rw [fire_transactions] at h
  rcases hnc : new_coinbase_tx_account c s miner with ⟨e, se⟩ | s₁ <;>
    simp only [hnc] at h
  · cases h
  · obtain ⟨hbal, hbp, hsub, hblocks, sd, hsig, htx⟩ := new_coinbase_ok_spec hnc
    rcases happ : applyIntents s₁.balance_pool s₁.address_pool with ⟨e2, p⟩ | pool <;>
      simp only [happ] at h
    · cases h
    · cases h
      calc sumBal pool = sumBal s₁.address_pool := applyIntents_ok_sum happ
        _ = sumBal s.address_pool + s.subsidy := addBalance_sum hbal

/-- C7 (witness): settling one A-to-B transfer of 30 with miner A moves the
total from 100 to 150 = 100 + subsidy. -/
theorem c7_balance_conservation_witness :
    sumBal (erredState (fire_transactions cTest settleState "A")).address_pool =
      sumBal settleState.address_pool + settleState.subsidy :=
  c7_balance_conservation cTest settleState "A"
    (erredState (fire_transactions cTest settleState "A")) (by rfl)

/-- C8 (counterexample): `create_user` on a duplicate name does not fail:
with account A already in the pool, the call returns normally — in this
embedding `create_user` has no error channel at all, because the method never
raises — and the only state change is the printed duplicate warning; the
account pool and the persisted records are untouched. -/
theorem c8_duplicate_no_failure_counterexample :
    create_user cTest settleState "A" =
      { settleState with warnings := settleState.warnings ++ [dupUserMsg] } ∧
    (create_user cTest settleState "A").address_pool = settleState.address_pool ∧
    (create_user cTest settleState "A").savedAddressLog =
      settleState.savedAddressLog := by
  refine ⟨rfl, rfl, rfl⟩

/-- C8 (amended): `create_user` on a name already present does not raise and
creates nothing — it returns normally after printing the duplicate-name
warning, with every other piece of state unchanged; on a fresh name it
creates an account with that name, a fresh keypair, the derived address and
balance 0, appends it to the pool and persists its record. -/
theorem c8_create_account (c : Crypto) (s : BState) (name : String) :
    ((lookupAddr s.address_pool name).isSome →
      create_user c s name = { s with warnings := s.warnings ++ [dupUserMsg] }) ∧
    (lookupAddr s.address_pool name = none →
      ∃ a : Address, a.name = name ∧ a.balance = 0 ∧ a.vk = c.vkOf a.sk ∧
        a.address = create_address c a.vk ∧
        create_user c s name =
          { s with
            address_pool := s.address_pool ++ [a]
            savedAddressLog := s.savedAddressLog ++ [a]
            keySeed := s.keySeed + 1 }) := by
  constructor
  · intro hm
    rw [create_user]
    rcases hl : lookupAddr s.address_pool name with _ | a
    · rw [hl] at hm; cases hm
    · rfl
  · intro hn
    rw [create_user, hn]
    exact ⟨_, rfl, rfl, rfl, rfl, rfl⟩

/-- C8 (witness): creating A again on a pool that holds A warns and leaves
the state unchanged except the warning; creating fresh C appends a
zero-balance account with the derived address. -/
theorem c8_create_account_witness :
    (create_user cTest settleState "A" =
      { settleState with warnings := settleState.warnings ++ [dupUserMsg] }) ∧
    (∃ a : Address, a.name = "C" ∧ a.balance = 0 ∧ a.vk = cTest.vkOf a.sk ∧
      a.address = create_address cTest a.vk ∧
      create_user cTest settleState "C" =
        { settleState with
          address_pool := settleState.address_pool ++ [a]
          savedAddressLog := settleState.savedAddressLog ++ [a]
          keySeed := settleState.keySeed + 1 }) :=
  ⟨(c8_create_account cTest settleState "A").1 (by rfl),
   (c8_create_account cTest settleState "C").2 (by rfl)⟩

/-- C9: deserializing the serialization of a wallet restores every field the
core depends on — name, balance, signing key, verifying key and address —
whenever the external byte/text codecs invert on this wallet's key material
(base-64 over ASCII text, and the ecdsa key byte serialization). -/
theorem c9_wallet_roundtrip (c : Crypto) (w : Wallet) (freshSk : Nat)
    (hsk : c.keyFromString (c.b64decode (c.encodeAscii
      (c.decodeAscii (c.b64encode (c.keyToString w.sk))))) = w.sk)
    (hvk : c.keyFromString (c.b64decode (c.encodeAscii
      (c.decodeAscii (c.b64encode (c.keyToString w.vk))))) = w.vk) :
    Wallet.deserialize c freshSk (Wallet.serialize c w) = w := by
  cases w with
  | mk name balance sk vk address =>
      simp [Wallet.serialize, Wallet.deserialize, walletInit] at hsk hvk ⊢
      simp [Wallet.mk.injEq, hsk, hvk]

/-- C9 (witness): the round trip evaluated on a concretely created wallet
with the concrete codecs. -/
theorem c9_wallet_roundtrip_witness :
    Wallet.deserialize cTest 9 (Wallet.serialize cTest demoWallet) = demoWallet :=
  c9_wallet_roundtrip cTest demoWallet 9 (by rfl) (by rfl)

/-- C10: with the sender present, `add_transaction` raises if and only if
the sender's current balance is below the amount; there is no positivity
check, so any amount the balance covers — including zero and negative
amounts whenever the balance is nonnegative — is signed and appended to both
pool sequences. -/
theorem c10_no_positivity_check (c : Crypto) (s : BState) (src dst : String)
    (amt : Int) (a : Address)
    (hl : lookupAddr s.address_pool src = some a) :
    ((add_transaction c s src dst amt).isOk = false ↔ a.balance < amt) ∧
    (amt ≤ a.balance →
      add_transaction c s src dst amt =
        .ok { s with
              transaction_pool := s.transaction_pool ++
                [txPayload src dst amt ++ "|" ++
                  c.decodeAscii (c.b58encode (c.sign a.sk (txPayload src dst amt)))]
              balance_pool := s.balance_pool ++ [(src, dst, amt)] }) ∧
    (amt ≤ 0 → 0 ≤ a.balance → (add_transaction c s src dst amt).isOk = true) := by
  have hsuff : ∀ hge : amt ≤ a.balance,
      add_transaction c s src dst amt =
        .ok { s with
              transaction_pool := s.transaction_pool ++
                [txPayload src dst amt ++ "|" ++
                  c.decodeAscii (c.b58encode (c.sign a.sk (txPayload src dst amt)))]
              balance_pool := s.balance_pool ++ [(src, dst, amt)] } :=
    fun hge => add_transaction_sufficient hl hge
  refine ⟨⟨?_, ?_⟩, hsuff, ?_⟩
  · intro hfail
    by_contra hge
    rw [hsuff (not_lt.mp hge)] at hfail
    cases hfail
  · intro hlt
    rw [add_transaction_insufficient hl hlt]
    rfl
  · intro hneg hpos
    rw [hsuff (hneg.trans hpos)]
    rfl

/-- C10 (witness): a negative amount of -5 from account A (balance 100) is
accepted and appended, and the failure-iff-insufficiency equivalence holds at
this input. -/
theorem c10_no_positivity_check_witness :
    ((add_transaction cTest settleState "A" "B" (-5)).isOk = false ↔
      (100 : Int) < (-5)) ∧
    ((-5 : Int) ≤ 100 →
      add_transaction cTest settleState "A" "B" (-5) =
        .ok { settleState with
              transaction_pool := settleState.transaction_pool ++
                [txPayload "A" "B" (-5) ++ "|" ++
                  cTest.decodeAscii (cTest.b58encode (cTest.sign 1 (txPayload "A" "B" (-5))))]
              balance_pool := settleState.balance_pool ++ [("A", "B", (-5))] }) ∧
    ((-5 : Int) ≤ 0 → (0 : Int) ≤ 100 →
      (add_transaction cTest settleState "A" "B" (-5)).isOk = true) :=
  c10_no_positivity_check cTest settleState "A" "B" (-5)
    { name := "A", balance := 100, sk := 1, vk := 2, address := "addrA" }
    (by rfl)

end PseudoBitcoin
